import Mathlib

/-!
Shallow embedding of `src/sec_subsidiaries.py` (SEC subsidiaries scraper).

Conventions of the embedding:
* Python strings are Lean `String`s; the string primitives the script uses
  (`str.strip`, `str.split`, `str.lower`, `str.zfill`, `int(...)`, `in`,
  `startswith`, `replace('-','')`) are re-implemented below on `List Char`
  so that every definition evaluates inside the kernel.
* The network is an explicit `Upstream` value: one field per endpoint family
  the script queries (ticker lookup atom, submissions JSON, filing index
  JSON, exhibit HTML document).  `none` models `get_with_retry` returning
  `None`; a response carries its HTTP status so that Python truthiness of a
  `requests.Response` (`status_code < 400`) can be modelled.
* A fetched HTML document is modelled at the BeautifulSoup output level:
  the list of tables (each a list of rows, each row a list of cell texts)
  plus the visible text, which is what the script consumes.
* Python `try/except` bodies are `Except String` values; the catch-all
  handlers of the script are the `pyCatch`/`pyCatchE` wrappers.
* CPython iterates a `set` of strings in an order that depends on the
  per-process hash seed, so `list(set(xs))` is modelled as an arbitrary
  enumeration function `enum` constrained by `validSetEnum`: it must return
  the distinct elements of its input in some order.
-/

/-- Python str.strip: remove leading and trailing whitespace. -/
def pyStrip (s : String) : String :=
  String.mk (((s.toList.dropWhile Char.isWhitespace).reverse.dropWhile Char.isWhitespace).reverse)

/-- Split a character list at every occurrence of the separator, Python str.split semantics:
splitting the empty string yields one empty field. -/
def splitOnChar (c : Char) : List Char → List (List Char)
  | [] => [[]]
  | x :: xs =>
    let r := splitOnChar c xs
    if x = c then [] :: r
    else match r with
      | [] => [[x]]
      | h :: t => (x :: h) :: t

/-- Python text.split of a newline, as used on the visible text of the exhibit document. -/
def splitLines (s : String) : List String :=
  (splitOnChar '\n' s.toList).map String.mk

/-- Python substring containment (pat in s), on character lists. -/
def listHasSub {α} [BEq α] (pat : List α) : List α → Bool
  | [] => pat.isEmpty
  | a :: as => pat.isPrefixOf (a :: as) || listHasSub pat as

/-- Python str.lower (ASCII case folding, which covers every name the script compares). -/
def lowerStr (s : String) : String :=
  String.mk (s.toList.map Char.toLower)

/-- Python str.startswith. -/
def strStartsWith (pat s : String) : Bool :=
  pat.toList.isPrefixOf s.toList

/-- Python str.zfill on the character list: left-pad with zeros to the requested
width, keeping a leading sign. -/
def zfillL (w : Nat) : List Char → List Char
  | [] => List.replicate w '0'
  | c :: cs =>
    if c = '-' ∨ c = '+' then
      c :: (List.replicate (w - (cs.length + 1)) '0' ++ cs)
    else
      List.replicate (w - (cs.length + 1)) '0' ++ c :: cs

/-- Python str.zfill. -/
def zfill (w : Nat) (s : String) : String :=
  String.mk (zfillL w s.toList)

/-- Decimal digit run to number: nonempty all-digit character lists only. -/
def parseNatDigits (l : List Char) : Option Nat :=
  match l with
  | [] => none
  | _ =>
    if l.all Char.isDigit then
      some (l.foldl (fun acc c => acc * 10 + (c.toNat - '0'.toNat)) 0)
    else none

/-- Python int(s) on a decimal literal: strip whitespace, optional sign, digits; 'none'
models the ValueError raised on anything else. -/
def pythonInt (s : String) : Option Int :=
  match (pyStrip s).toList with
  | '-' :: rest => (parseNatDigits rest).map (fun n => -(n : Int))
  | '+' :: rest => (parseNatDigits rest).map (fun n => (n : Int))
  | chars => (parseNatDigits chars).map (fun n => (n : Int))

/-- Python accession.replace('-', ''): drop every dash. -/
def stripDashes (s : String) : String :=
  String.mk (s.toList.filter (fun c => c != '-'))

/-! ## Resilient fetcher (get_with_retry, lines 38-81)

One call of the function is determined by what the wire returns on each
attempt: either a response with some status code, or a transport-level
exception (requests.exceptions.RequestException). The embedding returns the
final outcome (some status for a returned response, none for the
exhausted-budget None) together with the list of backoff waits slept, in
order.  The constant 0.1-second courtesy sleep before every attempt is not
part of the waits list; only the retry waits of the claim are tracked. -/

inductive FetchOutcome where
  | resp (status : Nat)
  | exc
deriving DecidableEq

/-- Loop body of get_with_retry. 'remaining' counts the iterations the for-loop
still has; 'attempt' is the Python loop variable, so remaining + attempt = maxRetries. -/
def getWithRetryGo (outcomes : Nat → FetchOutcome) (initialWait maxRetries : Nat) :
    Nat → Nat → Option Nat × List Nat
  | 0, _ => (none, [])
  | remaining + 1, attempt =>
    match outcomes attempt with
    | .resp status =>
      if status = 429 then
        let r := getWithRetryGo outcomes initialWait maxRetries remaining (attempt + 1)
        (r.1, initialWait * 2 ^ attempt :: r.2)
      else if status = 403 then
        let r := getWithRetryGo outcomes initialWait maxRetries remaining (attempt + 1)
        (r.1, 10 :: r.2)
      else
        (some status, [])
    | .exc =>
      if attempt < maxRetries - 1 then
        let r := getWithRetryGo outcomes initialWait maxRetries remaining (attempt + 1)
        (r.1, initialWait * 2 ^ attempt :: r.2)
      else
        (none, [])

/-- get_with_retry: up to maxRetries attempts; 429 backs off initialWait * 2 ^ attempt,
403 waits a fixed 10 seconds, a transport exception backs off like 429 except on the
last attempt, any other response is returned immediately; falling off the loop
returns None. -/
def getWithRetry (outcomes : Nat → FetchOutcome) (maxRetries : Nat) (initialWait : Nat) :
    Option Nat × List Nat :=
  getWithRetryGo outcomes initialWait maxRetries maxRetries 0

/-! ## Document extractor (parse_subsidiaries, lines 173-207) -/

/-- An exhibit document as BeautifulSoup presents it to the script: every table
(soup.find_all('table')) as rows (find_all('tr')) of cell texts
(find_all(['td','th']) then get_text()), and the visible text (soup.get_text()). -/
structure HtmlDoc where
  tables : List (List (List String))
  text : String
deriving DecidableEq

/-- Table tier, per cell: text = cell.get_text().strip(); kept if text and len(text) > 2. -/
def cellKeep (cell : String) : Option String :=
  if pyStrip cell ≠ "" ∧ 2 < (pyStrip cell).length then some (pyStrip cell) else none

/-- Table tier of parse_subsidiaries: every kept cell of every row of every table,
in document order. -/
def tableCells (doc : HtmlDoc) : List String :=
  doc.tables.flatMap (fun tbl => tbl.flatMap (fun row => row.filterMap cellKeep))

/-- The regex r of line 201: zero or more whitespace or bullet characters followed by
an ASCII uppercase letter (re.match anchors at the start of the line). -/
def startsUpperAfterBullets (s : String) : Bool :=
  match s.toList.dropWhile (fun c => c.isWhitespace || c == '•') with
  | [] => false
  | c :: _ => decide ('A' ≤ c) && decide (c ≤ 'Z')

/-- Text tier, per line: line = line.strip(); kept (as the stripped line, bullets
included) if line and len(line) > 2 and the regex matches. -/
def lineKeep (l : String) : Option String :=
  if pyStrip l ≠ "" ∧ 2 < (pyStrip l).length ∧ startsUpperAfterBullets (pyStrip l) = true then
    some (pyStrip l)
  else none

/-- Text tier of parse_subsidiaries over the document's visible text. -/
def fallbackLines (text : String) : List String :=
  (splitLines text).filterMap lineKeep

/-- The subsidiaries list before deduplication: table cells, or, only when the table
tier produced nothing, the kept text lines. -/
def extractSubs (doc : HtmlDoc) : List String :=
  if (tableCells doc).isEmpty then fallbackLines doc.text else tableCells doc

/-- A set enumeration is any function returning the distinct elements of its input in
some order; CPython's list(set(xs)) is one such function, with the order fixed by the
per-process string hash seed. -/
def validSetEnum (enum : List String → List String) : Prop :=
  ∀ l : List String, (enum l).Perm l.dedup

/-- parse_subsidiaries applied to an already-fetched document:
return list(set(subsidiaries)). -/
def parseDoc (enum : List String → List String) (doc : HtmlDoc) : List String :=
  enum (extractSubs doc)

/-! ## Upstream model -/

/-- The atom response of the ticker lookup: its status and the text of the cik tag
when soup.find('cik') finds one. -/
structure CikResp where
  status : Nat
  cikTag : Option String
deriving DecidableEq

/-- The parallel arrays of data['filings']['recent'] (absent keys default to []). -/
structure Submissions where
  forms : List String
  dates : List String
  accessions : List String
deriving DecidableEq

/-- The submissions endpoint response; json = none models response.json() raising. -/
structure SubResp where
  status : Nat
  json : Option Submissions
deriving DecidableEq

/-- The filing index response: the names data['directory']['item'][i]['name'];
json = none models response.json() raising. -/
structure IdxResp where
  status : Nat
  json : Option (List String)
deriving DecidableEq

/-- The exhibit document response, already parsed by BeautifulSoup. -/
structure DocResp where
  status : Nat
  doc : HtmlDoc
deriving DecidableEq

/-- Everything the upstream service would answer during one run: one field per
endpoint family, each keyed the way the script builds the request. none models
get_with_retry returning None (exhausted retries). -/
structure Upstream where
  cikLookup : String → Option CikResp
  submissions : String → Option SubResp
  filingIndex : String → String → Option IdxResp
  document : String → Option DocResp

/-- Run a Python try body: the catch-all except handler turns any raised exception
into the default value. -/
def pyCatch {α} (body : Except String α) (default : α) : α :=
  match body with
  | .ok v => v
  | .error _ => default

/-- Same as pyCatch but keeping the Except type, to state that the exception never
escapes the function. -/
def pyCatchE {α} (body : Except String α) (default : α) : Except String α :=
  match body with
  | .ok v => .ok v
  | .error _ => .ok default

/-- Python truthiness of an optional requests.Response: None is falsy, a response is
truthy iff response.ok, i.e. status_code < 400. -/
def respTruthy (status : Nat) : Bool :=
  decide (status < 400)

/-! ## Identifier resolver (get_cik, lines 83-106) -/

/-- Body of the try block of get_cik: fetch the lookup atom; on a truthy 200
response take the cik tag; cik = str(int(text)).zfill(10) raises ValueError when the
text is not an integer literal; a missing tag or a bad response falls through to
return None. -/
def getCikBody (up : Upstream) (ticker : String) : Except String (Option String) :=
  match up.cikLookup ticker with
  | none => .ok none
  | some resp =>
    if respTruthy resp.status && resp.status == 200 then
      match resp.cikTag with
      | some txt =>
        match pythonInt txt with
        | some n => .ok (some (zfill 10 n.repr))
        | none => .error "ValueError"
      | none => .ok none
    else .ok none

/-- get_cik with its catch-all except: Except-typed, to state that it never raises. -/
def getCikE (up : Upstream) (ticker : String) : Except String (Option String) :=
  pyCatchE (getCikBody up ticker) none

/-- get_cik as its callers see it. -/
def getCik (up : Upstream) (ticker : String) : Option String :=
  pyCatch (getCikBody up ticker) none

/-! ## Filing locator (get_10k_accession, lines 108-142) -/

/-- The zip of the three parallel arrays, exactly as zip(forms, dates, accessions)
truncates to the shortest. -/
def tenKEntries (sub : Submissions) : List (String × String × String) :=
  sub.forms.zip (sub.dates.zip sub.accessions)

/-- The selection of line 133: form == '10-K' and date.startswith(str(year)). -/
def isTenKFor (year : Nat) (e : String × String × String) : Bool :=
  e.1 == "10-K" && strStartsWith (Nat.repr year) e.2.1

/-- The loop of lines 132-135 over the zipped arrays: first matching entry, with the
accession's dashes stripped. -/
def findTenK (sub : Submissions) (year : Nat) : Option String :=
  ((tenKEntries sub).find? (isTenKFor year)).map (fun e => stripDashes e.2.2)

/-- Body of the try block of get_10k_accession: pad the cik, fetch the submissions
record, bail out on a falsy response, raise on malformed JSON, otherwise scan the
parallel arrays. -/
def get10kAccessionBody (up : Upstream) (cik : String) (year : Nat) :
    Except String (Option String) :=
  match up.submissions (zfill 10 cik) with
  | none => .ok none
  | some resp =>
    if respTruthy resp.status then
      match resp.json with
      | none => .error "JSONDecodeError"
      | some sub => .ok (findTenK sub year)
    else .ok none

/-- get_10k_accession with its catch-all except, Except-typed. -/
def get10kAccessionE (up : Upstream) (cik : String) (year : Nat) :
    Except String (Option String) :=
  pyCatchE (get10kAccessionBody up cik year) none

/-- get_10k_accession as its callers see it. -/
def get10kAccession (up : Upstream) (cik : String) (year : Nat) : Option String :=
  pyCatch (get10kAccessionBody up cik year) none

/-! ## Exhibit locator (get_exhibit_21_url, lines 144-171) -/

/-- The test of line 164: 'ex21' in file.get('name','').lower(). -/
def ex21Matches (name : String) : Bool :=
  listHasSub "ex21".toList (lowerStr name).toList

/-- The loop of lines 163-165 over the index items: first name containing 'ex21'. -/
def exhibit21Item (items : List String) : Option String :=
  items.find? ex21Matches

/-- The URL of line 165. -/
def exhibitUrl (cik accession name : String) : String :=
  "https://www.sec.gov/Archives/edgar/data/" ++ cik ++ "/" ++ accession ++ "/" ++ name

/-- Body of the try block of get_exhibit_21_url: pad the cik, strip the accession,
fetch the filing index, bail out on a falsy response, raise on malformed JSON,
otherwise pick the first 'ex21' item and build its URL. -/
def getExhibit21UrlBody (up : Upstream) (cik accession : String) :
    Except String (Option String) :=
  let cikP := zfill 10 cik
  let accP := stripDashes accession
  match up.filingIndex cikP accP with
  | none => .ok none
  | some resp =>
    if respTruthy resp.status then
      match resp.json with
      | none => .error "JSONDecodeError"
      | some items => .ok ((exhibit21Item items).map (exhibitUrl cikP accP))
    else .ok none

/-- get_exhibit_21_url with its catch-all except, Except-typed. -/
def getExhibit21UrlE (up : Upstream) (cik accession : String) :
    Except String (Option String) :=
  pyCatchE (getExhibit21UrlBody up cik accession) none

/-- get_exhibit_21_url as its callers see it. -/
def getExhibit21Url (up : Upstream) (cik accession : String) : Option String :=
  pyCatch (getExhibit21UrlBody up cik accession) none

/-- Following the spec's words for comparison with the code's selector: a
subsidiary-exhibit name contains the exhibit number "21" (case-insensitively), does
not suggest a cover page, and carries a recognized document extension. -/
def specExhibitMatch (name : String) : Bool :=
  let ln := (lowerStr name).toList
  listHasSub "21".toList ln &&
    !(listHasSub "cover".toList ln) &&
    (List.isSuffixOf ".htm".toList ln || List.isSuffixOf ".html".toList ln ||
      List.isSuffixOf ".txt".toList ln)

/-- Following the spec's words: the first index item matching the heuristic. -/
def specExhibitSelect (items : List String) : Option String :=
  items.find? specExhibitMatch

/-- parse_subsidiaries including its document fetch: a falsy or missing response
yields [], otherwise the two-tier extraction runs on the parsed document. -/
def parseSubsidiaries (enum : List String → List String) (up : Upstream)
    (url : String) : List String :=
  match up.document url with
  | none => []
  | some resp => if respTruthy resp.status then parseDoc enum resp.doc else []

/-! ## Orchestrator (process_company, lines 209-248; save_results, lines 250-293;
main, lines 295-311) -/

/-- One row of the results list built by process_company. -/
structure SubRecord where
  company : String
  year : Nat
  subsidiary : String
deriving DecidableEq, Repr

/-- The years of line 222: range(2018, current_year + 1). -/
def yearsRange (currentYear : Nat) : List Nat :=
  (List.range (currentYear + 1 - 2018)).map (fun k => 2018 + k)

/-- The body of the per-year loop of process_company: accession, then exhibit URL,
then extraction, short-circuiting to no records on a missing stage output; extracted
names are stamped with the company name and the year. -/
def yearStep (up : Upstream) (companyName : String) (enum : List String → List String)
    (cik : String) (year : Nat) : List SubRecord :=
  match get10kAccession up cik year with
  | none => []
  | some accession =>
    match getExhibit21Url up cik accession with
    | none => []
    | some url =>
      (parseSubsidiaries enum up url).map (fun s => ⟨companyName, year, s⟩)

/-- process_company: resolve the cik once (an unresolved ticker aborts the whole
company with no records), then fold the per-year loop over 2018..current_year,
appending each year's records.  Every stage call catches its own exceptions, so the
try block of process_company has nothing left to raise. -/
def processCompany (up : Upstream) (currentYear : Nat) (companyName ticker : String)
    (enum : List String → List String) : List SubRecord :=
  match getCik up ticker with
  | none => []
  | some cik =>
    (yearsRange currentYear).foldl (fun acc y => acc ++ yearStep up companyName enum cik y) []

/-- Insertion into a sorted list, for the model of the pandas sorts. -/
def insertBy {α} (le : α → α → Bool) (a : α) : List α → List α
  | [] => [a]
  | x :: xs => if le a x then a :: x :: xs else x :: insertBy le a xs

/-- Insertion sort, for the model of the pandas sorts. -/
def sortBy {α} (le : α → α → Bool) (l : List α) : List α :=
  l.foldr (insertBy le) []

/-- save_results at the level the claims talk about: an empty DataFrame writes
nothing; otherwise one sheet per distinct year of the results (groupby iterates
years in ascending order), each sheet holding that year's rows sorted by
subsidiary. -/
def saveResults (results : List SubRecord) : List (Nat × List SubRecord) :=
  if results.isEmpty then []
  else
    (sortBy (fun a b => Nat.ble a b) ((results.map (fun r => r.year)).dedup)).map
      (fun y => (y, sortBy (fun a b => decide (a.subsidiary < b.subsidiary) ||
          a.subsidiary == b.subsidiary)
        (results.filter (fun r => r.year == y))))

/-- The company loop of main: every company is processed and its results saved; the
pair returned per company is the company name and its written sheets. -/
def mainLoop (up : Upstream) (currentYear : Nat) (enum : List String → List String)
    (companies : List (String × String)) : List (String × List (Nat × List SubRecord)) :=
  companies.map (fun c => (c.1, saveResults (processCompany up currentYear c.1 c.2 enum)))

/-! ## Concrete inputs used by the counterexamples and witnesses -/

/-- Wire behavior for the retry claim: three 429 responses, then 200 forever. -/
def c4Outcomes : Nat → FetchOutcome :=
  fun i => if i < 3 then .resp 429 else .resp 200

/-- The exhibit document of the table-tier example: one table with the rows
Acme GmbH / Germany and Acme Ltd / UK. -/
def acmeDoc : HtmlDoc :=
  ⟨[[["Acme GmbH", "Germany"], ["Acme Ltd", "UK"]]], ""⟩

/-- The exhibit document of the text-tier example: no tables, three lines. -/
def bulletDoc : HtmlDoc :=
  ⟨[], "Acme Corp\nacme corp\n•Acme Corp"⟩

/-- A second valid set enumeration: the distinct elements in the reverse order.
Two CPython processes with different hash seeds are two such enumerations. -/
def revDedup : List String → List String :=
  fun l => l.dedup.reverse

/-- An upstream state on which the whole pipeline succeeds for the year 2018,
serving the Acme table document as exhibit 21. -/
def upAcme : Upstream where
  cikLookup := fun _ => some ⟨200, some "123"⟩
  submissions := fun c =>
    if c = "0000000123" then
      some ⟨200, some ⟨["10-K"], ["2018-02-01"], ["0001-23-456"]⟩⟩
    else none
  filingIndex := fun c a =>
    if c = "0000000123" ∧ a = "000123456" then some ⟨200, some ["ex21.htm"]⟩ else none
  document := fun u =>
    if u = exhibitUrl "0000000123" "000123456" "ex21.htm" then some ⟨200, acmeDoc⟩
    else none

/-- An upstream state whose submissions record holds no filings at all: the cik
resolves but every year lacks a 10-K. -/
def upNoFiling : Upstream where
  cikLookup := fun _ => some ⟨200, some "123"⟩
  submissions := fun _ => some ⟨200, some ⟨[], [], []⟩⟩
  filingIndex := fun _ _ => none
  document := fun _ => none

/-- An upstream state whose ticker lookup response carries no cik tag: the ticker is
not present in the registry. -/
def upNoTag : Upstream where
  cikLookup := fun _ => some ⟨200, none⟩
  submissions := fun _ => none
  filingIndex := fun _ _ => none
  document := fun _ => none

/-- An upstream state whose cik tag text is not an integer literal, so that
str(int(text)) raises ValueError inside the try block of get_cik. -/
def upBadCik : Upstream where
  cikLookup := fun _ => some ⟨200, some "abc"⟩
  submissions := fun _ => none
  filingIndex := fun _ _ => none
  document := fun _ => none

/-! ## Helper lemmas -/

/-- List.find? returns some a exactly when a is the first element satisfying the
predicate: everything before it in the list fails the predicate. -/
theorem find_eq_some_iff {α} (p : α → Bool) (l : List α) (a : α) :
    l.find? p = some a ↔
      p a = true ∧ ∃ pre post, l = pre ++ a :: post ∧ ∀ x ∈ pre, p x = false := by
  induction l with
  | nil =>
    simp only [List.find?_nil]
    constructor
    · intro h; cases h
    · rintro ⟨-, pre, post, h, -⟩
      rcases pre with _ | ⟨c, pre⟩ <;> simp at h
  | cons c t ih =>
    cases hpc : p c with
    | true =>
      rw [List.find?_cons_of_pos _ hpc]
      constructor
      · intro h
        injection h with h; subst h
        exact ⟨hpc, [], t, rfl, by intro x hx; cases hx⟩
      · rintro ⟨hpa, pre, post, hl, hpre⟩
        rcases pre with _ | ⟨d, pre⟩
        · simp only [List.nil_append, List.cons.injEq] at hl
          exact congrArg some hl.1
        · simp only [List.cons_append, List.cons.injEq] at hl
          have hd := hpre d (List.mem_cons_self d pre)
          rw [← hl.1] at hd
          rw [hpc] at hd; cases hd
    | false =>
      rw [List.find?_cons_of_neg _ (by simp [hpc])]
      rw [ih]
      constructor
      · rintro ⟨hpa, pre, post, hl, hpre⟩
        refine ⟨hpa, c :: pre, post, by rw [hl]; rfl, ?_⟩
        intro x hx
        rcases List.mem_cons.mp hx with rfl | hx
        · exact hpc
        · exact hpre x hx
      · rintro ⟨hpa, pre, post, hl, hpre⟩
        rcases pre with _ | ⟨d, pre⟩
        · simp only [List.nil_append, List.cons.injEq] at hl
          rw [hl.1] at hpc
          rw [hpa] at hpc; cases hpc
        · simp only [List.cons_append, List.cons.injEq] at hl
          exact ⟨hpa, pre, post, hl.2, fun x hx => hpre x (List.mem_cons_of_mem d hx)⟩

/-- Membership in the accumulate-by-append fold that process_company's year loop is. -/
theorem mem_foldl_append {α β} (f : β → List α) (l : List β) (init : List α) (a : α) :
    a ∈ l.foldl (fun acc y => acc ++ f y) init ↔ a ∈ init ∨ ∃ y ∈ l, a ∈ f y := by
  induction l generalizing init with
  | nil => simp
  | cons c t ih =>
    simp only [List.foldl_cons]
    rw [ih]
    simp only [List.mem_append, List.mem_cons]
    constructor
    · rintro ((h | h) | ⟨y, hy, hfy⟩)
      · exact Or.inl h
      · exact Or.inr ⟨c, Or.inl rfl, h⟩
      · exact Or.inr ⟨y, Or.inr hy, hfy⟩
    · rintro (h | ⟨y, (rfl | hy), hfy⟩)
      · exact Or.inl (Or.inl h)
      · exact Or.inl (Or.inr hfy)
      · exact Or.inr ⟨y, hy, hfy⟩

/-- The accumulate-by-append fold maps permutations pointwise. -/
theorem foldl_append_perm {α β} (f g : β → List α) (l : List β) :
    ∀ {init₁ init₂ : List α}, init₁.Perm init₂ → (∀ y, (f y).Perm (g y)) →
      (l.foldl (fun acc y => acc ++ f y) init₁).Perm
        (l.foldl (fun acc y => acc ++ g y) init₂) := by
  induction l with
  | nil => intro i1 i2 hinit _; exact hinit
  | cons c t ih =>
    intro i1 i2 hinit h
    simp only [List.foldl_cons]
    exact ih (hinit.append (h c)) h

/-- Every digit character produced by Nat.digitChar below base 10 is a digit. -/
theorem digitChar_isDigit {m : Nat} (h : m < 10) : (Nat.digitChar m).isDigit = true := by
  interval_cases m <;> decide

/-- One step of the decimal printer. -/
theorem toDigitsCore_succ (fuel n : Nat) (ds : List Char) :
    Nat.toDigitsCore 10 (fuel + 1) n ds =
      (if n / 10 = 0 then Nat.digitChar (n % 10) :: ds
       else Nat.toDigitsCore 10 fuel (n / 10) (Nat.digitChar (n % 10) :: ds)) := by
  simp [Nat.toDigitsCore]

/-- The decimal printer only ever emits digit characters. -/
theorem toDigitsCore_digits (fuel : Nat) :
    ∀ (n : Nat) (ds : List Char), (∀ c ∈ ds, c.isDigit = true) →
      ∀ c ∈ Nat.toDigitsCore 10 fuel n ds, c.isDigit = true := by
  induction fuel with
  | zero => intro n ds hds; simpa [Nat.toDigitsCore] using hds
  | succ fuel ih =>
    intro n ds hds
    rw [toDigitsCore_succ]
    have hd : (Nat.digitChar (n % 10)).isDigit = true :=
      digitChar_isDigit (Nat.mod_lt _ (by omega))
    have hcons : ∀ c ∈ Nat.digitChar (n % 10) :: ds, c.isDigit = true := by
      intro c hc
      rcases List.mem_cons.mp hc with rfl | hc
      · exact hd
      · exact hds c hc
    split
    · exact hcons
    · exact ih (n / 10) _ hcons

/-- The decimal printer never shortens its accumulator. -/
theorem toDigitsCore_length_le (fuel : Nat) :
    ∀ (n : Nat) (ds : List Char), ds.length ≤ (Nat.toDigitsCore 10 fuel n ds).length := by
  induction fuel with
  | zero => intro n ds; simp [Nat.toDigitsCore]
  | succ fuel ih =>
    intro n ds
    rw [toDigitsCore_succ]
    split
    · simp
    · calc ds.length ≤ (Nat.digitChar (n % 10) :: ds).length := by simp
        _ ≤ _ := ih (n / 10) _

/-- The decimal representation of a natural number is all digits. -/
theorem repr_toList_digits (n : Nat) : ∀ c ∈ (Nat.repr n).toList, c.isDigit = true := by
  have h : (Nat.repr n).toList = Nat.toDigitsCore 10 (n + 1) n [] := rfl
  rw [h]
  exact toDigitsCore_digits (n + 1) n [] (by intro c hc; cases hc)

/-- The decimal representation of a natural number is never empty. -/
theorem repr_toList_ne_nil (n : Nat) : (Nat.repr n).toList ≠ [] := by
  have h : (Nat.repr n).toList = Nat.toDigitsCore 10 (n + 1) n [] := rfl
  rw [h, toDigitsCore_succ]
  split
  · simp
  · apply List.ne_nil_of_length_pos
    have := toDigitsCore_length_le n (n / 10) [Nat.digitChar (n % 10)]
    simp at this
    omega

/-- Zero-filling an all-digit string yields an all-digit string of at least the
requested width. -/
theorem zfill_of_digits (w : Nat) (s : String) (hne : s.toList ≠ [])
    (hd : ∀ c ∈ s.toList, c.isDigit = true) :
    (∀ c ∈ (zfill w s).toList, c.isDigit = true) ∧ w ≤ (zfill w s).length := by
  rcases h : s.toList with _ | ⟨c, cs⟩
  · exact absurd h hne
  · have hc : c.isDigit = true := hd c (by rw [h]; exact List.mem_cons_self c cs)
    have hsign : ¬(c = '-' ∨ c = '+') := by
      rintro (rfl | rfl) <;> exact absurd hc (by decide)
    have hz : (zfill w s).toList = List.replicate (w - (cs.length + 1)) '0' ++ c :: cs := by
      show (zfillL w s.toList) = _
      rw [h]
      simp only [zfillL]
      rw [if_neg hsign]
    constructor
    · intro x hx
      rw [hz] at hx
      rcases List.mem_append.mp hx with hx0 | hx1
      · rw [(List.mem_replicate.mp hx0).2]; decide
      · exact hd x (by rw [h]; exact hx1)
    · show w ≤ (zfill w s).toList.length
      rw [hz]
      simp [List.length_append, List.length_replicate]
      omega

/-- Membership through sorted insertion. -/
theorem mem_insertBy {α} (le : α → α → Bool) (a x : α) (l : List α) :
    x ∈ insertBy le a l ↔ x = a ∨ x ∈ l := by
  induction l with
  | nil => simp [insertBy]
  | cons c t ih =>
    simp only [insertBy]
    split
    · simp [List.mem_cons]
    · simp only [List.mem_cons, ih]
      tauto

/-- Sorting does not change membership. -/
theorem mem_sortBy {α} (le : α → α → Bool) (x : α) (l : List α) :
    x ∈ sortBy le l ↔ x ∈ l := by
  induction l with
  | nil => simp [sortBy]
  | cons c t ih =>
    simp only [sortBy, List.foldr_cons]
    rw [mem_insertBy]
    rw [show List.foldr (insertBy le) [] t = sortBy le t from rfl, ih, List.mem_cons]

/-- What the table tier keeps of one cell. -/
theorem cellKeep_eq_some (cell s : String) :
    cellKeep cell = some s ↔ pyStrip cell = s ∧ s ≠ "" ∧ 2 < s.length := by
  unfold cellKeep
  split
  next h =>
    constructor
    · intro he; injection he with he; subst he; exact ⟨rfl, h.1, h.2⟩
    · rintro ⟨rfl, -, -⟩; rfl
  next h =>
    constructor
    · intro he; cases he
    · rintro ⟨rfl, h1, h2⟩; exact absurd ⟨h1, h2⟩ h

/-- What the text tier keeps of one line. -/
theorem lineKeep_eq_some (l s : String) :
    lineKeep l = some s ↔
      pyStrip l = s ∧ s ≠ "" ∧ 2 < s.length ∧ startsUpperAfterBullets s = true := by
  unfold lineKeep
  split
  next h =>
    constructor
    · intro he; injection he with he; subst he; exact ⟨rfl, h.1, h.2.1, h.2.2⟩
    · rintro ⟨rfl, -, -, -⟩; rfl
  next h =>
    constructor
    · intro he; cases he
    · rintro ⟨rfl, h1, h2, h3⟩; exact absurd ⟨h1, h2, h3⟩ h

/-- A valid set enumeration preserves membership. -/
theorem validSetEnum_mem {enum : List String → List String} (h : validSetEnum enum)
    (l : List String) (s : String) : s ∈ enum l ↔ s ∈ l :=
  (h l).mem_iff.trans List.mem_dedup

/-- Two valid set enumerations of the same list are permutations of each other. -/
theorem validSetEnum_perm {e1 e2 : List String → List String} (h1 : validSetEnum e1)
    (h2 : validSetEnum e2) (l : List String) : (e1 l).Perm (e2 l) :=
  (h1 l).trans (h2 l).symm

/-- parse_subsidiaries depends on the set enumeration only up to permutation. -/
theorem parseSubsidiaries_perm {e1 e2 : List String → List String} (h1 : validSetEnum e1)
    (h2 : validSetEnum e2) (up : Upstream) (url : String) :
    (parseSubsidiaries e1 up url).Perm (parseSubsidiaries e2 up url) := by
  unfold parseSubsidiaries
  cases up.document url with
  | none => exact List.Perm.refl _
  | some resp =>
    dsimp only
    split
    · exact validSetEnum_perm h1 h2 _
    · exact List.Perm.refl _

/-- The per-year loop body depends on the set enumeration only up to permutation. -/
theorem yearStep_perm {e1 e2 : List String → List String} (h1 : validSetEnum e1)
    (h2 : validSetEnum e2) (up : Upstream) (nm cik : String) (y : Nat) :
    (yearStep up nm e1 cik y).Perm (yearStep up nm e2 cik y) := by
  unfold yearStep
  cases get10kAccession up cik y with
  | none => exact List.Perm.refl _
  | some accession =>
    dsimp only
    cases getExhibit21Url up cik accession with
    | none => exact List.Perm.refl _
    | some url =>
      dsimp only
      exact (parseSubsidiaries_perm h1 h2 up url).map _

/-- Every record the per-year loop body produces is stamped with that year and the
company name. -/
theorem yearStep_stamp {up : Upstream} {nm : String} {enum : List String → List String}
    {cik : String} {y : Nat} {r : SubRecord} (h : r ∈ yearStep up nm enum cik y) :
    r.year = y ∧ r.company = nm := by
  unfold yearStep at h
  cases hacc : get10kAccession up cik y with
  | none => rw [hacc] at h; cases h
  | some accession =>
    rw [hacc] at h
    dsimp only at h
    cases hurl : getExhibit21Url up cik accession with
    | none => rw [hurl] at h; cases h
    | some url =>
      rw [hurl] at h
      dsimp only at h
      obtain ⟨s, -, rfl⟩ := List.mem_map.mp h
      exact ⟨rfl, rfl⟩

/-- Backoff waits of a run that sees nothing but 429: every attempt waits
initialWait * 2 ^ attempt and the budget is exhausted. -/
theorem getWithRetryGo_const429 (w maxR : Nat) :
    ∀ (rem att : Nat),
      getWithRetryGo (fun _ => .resp 429) w maxR rem att =
        (none, (List.range rem).map (fun i => w * 2 ^ (att + i))) := by
  intro rem
  induction rem with
  | zero => intro att; rfl
  | succ rem ih =>
    intro att
    rw [show getWithRetryGo (fun _ => FetchOutcome.resp 429) w maxR (rem + 1) att =
      ((getWithRetryGo (fun _ => FetchOutcome.resp 429) w maxR rem (att + 1)).1,
        w * 2 ^ att :: (getWithRetryGo (fun _ => FetchOutcome.resp 429) w maxR rem (att + 1)).2)
      from rfl]
    rw [ih (att + 1)]
    refine congrArg (Prod.mk none) ?_
    rw [List.range_succ_eq_map]
    simp only [List.map_cons, List.map_map, Nat.add_zero]
    refine congrArg (List.cons (w * 2 ^ att)) ?_
    apply List.map_congr_left
    intro i _
    show w * 2 ^ (att + 1 + i) = w * 2 ^ (att + (i + 1))
    rw [show att + 1 + i = att + (i + 1) from by omega]

/-- Claim C4, counterexample: with the default budget of three attempts and base wait
one, three consecutive 429 responses followed by a 200 do NOT produce the successful
response the claim asserts; the fetcher waits 1, 2 and 4 seconds and then returns
failure, the fourth request never being issued. -/
theorem claim4_counterexample :
    getWithRetry c4Outcomes 3 1 = (none, [1, 2, 4]) ∧
      getWithRetry c4Outcomes 3 1 ≠ (some 200, [1, 2, 4]) := by
  constructor
  · rfl
  · decide

/-- Claim C4, amended: on consecutive 429 responses the fetcher waits the exponential
sequence initialWait * 2 ^ attempt but exhausts its budget and returns failure; the
200 after three 429s is only returned when the attempt budget is at least four, in
which case the waits are exactly 1, 2, 4. -/
theorem claim4_amended :
    (∀ (w n : Nat), getWithRetry (fun _ => .resp 429) n w =
      (none, (List.range n).map (fun i => w * 2 ^ i))) ∧
    getWithRetry c4Outcomes 4 1 = (some 200, [1, 2, 4]) := by
  constructor
  · intro w n
    unfold getWithRetry
    rw [getWithRetryGo_const429 w n n 0]
    refine congrArg (Prod.mk none) (List.map_congr_left ?_)
    intro i _
    rw [Nat.zero_add]
  · rfl

/-- Claim C5 (confirmed): the filing locator returns None exactly when no zipped
submissions entry has form 10-K and a filing date prefixed by the year; otherwise it
returns the first such entry in registry order, accession dashes stripped; and on a
good submissions response get_10k_accession is exactly that scan. -/
theorem claim5_filing_locator :
    ∀ (sub : Submissions) (year : Nat),
      (findTenK sub year = none ↔ ∀ e ∈ tenKEntries sub, isTenKFor year e = false) ∧
      (∀ a : String, findTenK sub year = some a ↔
        ∃ e pre post, tenKEntries sub = pre ++ e :: post ∧ isTenKFor year e = true ∧
          (∀ x ∈ pre, isTenKFor year x = false) ∧ a = stripDashes e.2.2) ∧
      (∀ (up : Upstream) (cik : String) (resp : SubResp),
        up.submissions (zfill 10 cik) = some resp → respTruthy resp.status = true →
        resp.json = some sub → get10kAccession up cik year = findTenK sub year) := by
  intro sub year
  refine ⟨?_, ?_, ?_⟩
  · unfold findTenK
    rw [Option.map_eq_none', List.find?_eq_none]
    constructor
    · intro h e he
      simpa using h e he
    · intro h e he
      rw [h e he]
      simp
  · intro a
    unfold findTenK
    rw [Option.map_eq_some']
    constructor
    · rintro ⟨e, hf, ha⟩
      obtain ⟨hp, pre, post, hl, hpre⟩ := (find_eq_some_iff _ _ _).mp hf
      exact ⟨e, pre, post, hl, hp, hpre, ha.symm⟩
    · rintro ⟨e, pre, post, hl, hp, hpre, ha⟩
      exact ⟨e, (find_eq_some_iff _ _ _).mpr ⟨hp, pre, post, hl, hpre⟩, ha.symm⟩
  · intro up cik resp hs htr hj
    unfold get10kAccession pyCatch get10kAccessionBody
    rw [hs]
    dsimp only
    rw [if_pos htr, hj]

/-- Witness for claim C5 at a concrete upstream: the Acme submissions record
resolves to the dash-stripped accession of its single 10-K entry. -/
theorem claim5_witness :
    get10kAccession upAcme "0000000123" 2018 =
      findTenK ⟨["10-K"], ["2018-02-01"], ["0001-23-456"]⟩ 2018 :=
  (claim5_filing_locator ⟨["10-K"], ["2018-02-01"], ["0001-23-456"]⟩ 2018).2.2 upAcme
    "0000000123" ⟨200, some ⟨["10-K"], ["2018-02-01"], ["0001-23-456"]⟩⟩ (by decide) rfl rfl

/-- Claim C6, counterexample: the claim's selection rule (name contains "21"
case─insensitively, is not a cover page, has a recognized extension) accepts
"exhibit21.htm", but the code looks for the literal substring "ex21" and selects
nothing from that index. -/
theorem claim6_counterexample :
    exhibit21Item ["exhibit21.htm"] = none ∧
      specExhibitSelect ["exhibit21.htm"] = some "exhibit21.htm" := by
  constructor
  · rfl
  · rfl

/-- Claim C6, amended: the exhibit locator selects the first index item whose
lowercased name contains the substring "ex21", with no cover-page or extension
filtering; on the index of the claim's example it selects "ex21.htm". -/
theorem claim6_amended :
    exhibit21Item ["ex21.htm", "ex10.htm", "ex21_subsidiaries.htm"] = some "ex21.htm" ∧
    ∀ (items : List String) (n : String), exhibit21Item items = some n ↔
      ex21Matches n = true ∧
        ∃ pre post, items = pre ++ n :: post ∧ ∀ m ∈ pre, ex21Matches m = false := by
  constructor
  · rfl
  · intro items n
    exact find_eq_some_iff ex21Matches items n

/-- Claim C1, counterexample: on the document with one table of rows
Acme GmbH / Germany and Acme Ltd / UK the claim asserts exactly two records pairing
name with jurisdiction; the code instead collects every cell text longer than two
characters as its own flat record: "Germany" becomes a record of its own, "UK" (two
characters) is dropped, and three records result. -/
theorem claim1_counterexample :
    (parseDoc List.dedup acmeDoc).length = 3 ∧
      "Germany" ∈ parseDoc List.dedup acmeDoc ∧
      "UK" ∉ parseDoc List.dedup acmeDoc := by
  refine ⟨rfl, ?_, ?_⟩
  · decide
  · decide

/-- Claim C1, amended: on a document whose table tier finds at least one qualifying
cell, the extractor's output holds exactly the stripped cell texts of length greater
than two, each cell its own record with no name/jurisdiction pairing, deduplicated
with set semantics (membership below is up to the set enumeration's order). -/
theorem claim1_amended :
    ∀ (enum : List String → List String) (doc : HtmlDoc),
      validSetEnum enum → tableCells doc ≠ [] →
      ∀ s : String, s ∈ parseDoc enum doc ↔
        ∃ tbl ∈ doc.tables, ∃ row ∈ tbl, ∃ cell ∈ row,
          pyStrip cell = s ∧ s ≠ "" ∧ 2 < s.length := by
  intro enum doc henum hne s
  rw [show parseDoc enum doc = enum (extractSubs doc) from rfl]
  rw [validSetEnum_mem henum]
  unfold extractSubs
  rw [if_neg (by simpa [List.isEmpty_eq_true] using hne)]
  unfold tableCells
  simp only [List.mem_flatMap, List.mem_filterMap, cellKeep_eq_some]

/-- Witness for claim C1 on the Acme document with the identity enumeration. -/
theorem claim1_witness : "Acme GmbH" ∈ parseDoc List.dedup acmeDoc :=
  (claim1_amended List.dedup acmeDoc (fun l => List.Perm.refl _) (by decide) "Acme GmbH").mpr
    ⟨[["Acme GmbH", "Germany"], ["Acme Ltd", "UK"]], by decide,
      ["Acme GmbH", "Germany"], by decide, "Acme GmbH", by decide, by decide, by decide,
      by decide⟩

/-- Claim C3, counterexample: on the no-table document with lines
"Acme Corp", "acme corp", "•Acme Corp" the claim asserts the result set
containing "Acme Corp" and "acme corp"; the code keeps "Acme Corp" and keeps
"•Acme Corp" with its bullet NOT stripped, while "acme corp" (lowercase first
letter) is rejected. -/
theorem claim3_counterexample :
    parseDoc List.dedup bulletDoc = ["Acme Corp", "•Acme Corp"] ∧
      "acme corp" ∉ parseDoc List.dedup bulletDoc := by
  constructor
  · rfl
  · decide

/-- Claim C3, amended: on a document with no tables the extractor keeps exactly the
whitespace-stripped lines of length greater than two whose first character after any
leading whitespace/bullet run is an ASCII uppercase letter; the bullet run is NOT
removed from the kept line; deduplication is by exact text equality. -/
theorem claim3_amended :
    ∀ (enum : List String → List String) (doc : HtmlDoc),
      validSetEnum enum → doc.tables = [] →
      ∀ s : String, s ∈ parseDoc enum doc ↔
        ∃ l ∈ splitLines doc.text,
          pyStrip l = s ∧ s ≠ "" ∧ 2 < s.length ∧ startsUpperAfterBullets s = true := by
  intro enum doc henum htab s
  rw [show parseDoc enum doc = enum (extractSubs doc) from rfl]
  rw [validSetEnum_mem henum]
  unfold extractSubs
  have h0 : tableCells doc = [] := by unfold tableCells; rw [htab]; rfl
  rw [h0]
  rw [if_pos List.isEmpty_nil]
  unfold fallbackLines
  simp only [List.mem_filterMap, lineKeep_eq_some]

/-- Witness for claim C3 on the bullet document with the identity enumeration: the
bulleted line is kept verbatim. -/
theorem claim3_witness : "•Acme Corp" ∈ parseDoc List.dedup bulletDoc :=
  (claim3_amended List.dedup bulletDoc (fun l => List.Perm.refl _) rfl "•Acme Corp").mpr
    ⟨"•Acme Corp", by decide, by decide, by decide, by decide, by decide⟩

/-- Claim C9, counterexample: both enumerations are valid set enumerations (two
CPython processes with different hash seeds), the upstream state is identical, yet
the two runs produce the same records in different orders, so the YearResults are
not identical as the claim asserts. -/
theorem claim9_counterexample :
    validSetEnum List.dedup ∧ validSetEnum revDedup ∧
      processCompany upAcme 2018 "ACME" "ACM" List.dedup ≠
        processCompany upAcme 2018 "ACME" "ACM" revDedup :=
  ⟨fun _ => List.Perm.refl _, fun _ => List.reverse_perm _, by decide⟩

/-- Claim C9, amended: two runs of the pipeline against identical upstream responses
produce the same records up to order: the results are permutations of each other,
the order within a year depending on the per-process set enumeration. -/
theorem claim9_amended :
    ∀ (e1 e2 : List String → List String), validSetEnum e1 → validSetEnum e2 →
      ∀ (up : Upstream) (cy : Nat) (nm tk : String),
        (processCompany up cy nm tk e1).Perm (processCompany up cy nm tk e2) := by
  intro e1 e2 h1 h2 up cy nm tk
  unfold processCompany
  cases getCik up tk with
  | none => exact List.Perm.refl _
  | some cik =>
    dsimp only
    exact foldl_append_perm _ _ _ (List.Perm.refl _)
      (fun y => yearStep_perm h1 h2 up nm cik y)

/-- Witness for claim C9: the two concrete runs of the counterexample are indeed
permutations of each other. -/
theorem claim9_witness :
    (processCompany upAcme 2018 "ACME" "ACM" List.dedup).Perm
      (processCompany upAcme 2018 "ACME" "ACM" revDedup) :=
  claim9_amended List.dedup revDedup (fun _ => List.Perm.refl _)
    (fun _ => List.reverse_perm _) upAcme 2018 "ACME" "ACM"

/-- Claim C10 (confirmed): the orchestrator's year list is exactly 2018 through the
current year inclusive, strictly ascending, and every record process_company emits
is stamped with one of those years. -/
theorem claim10_year_range :
    ∀ cy : Nat,
      (∀ y, y ∈ yearsRange cy ↔ 2018 ≤ y ∧ y ≤ cy) ∧
      List.Pairwise (· < ·) (yearsRange cy) ∧
      (∀ (up : Upstream) (nm tk : String) (enum : List String → List String)
        (r : SubRecord), r ∈ processCompany up cy nm tk enum → r.year ∈ yearsRange cy) := by
  intro cy
  refine ⟨?_, ?_, ?_⟩
  · intro y
    unfold yearsRange
    simp only [List.mem_map, List.mem_range]
    constructor
    · rintro ⟨k, hk, rfl⟩; omega
    · rintro ⟨h1, h2⟩; exact ⟨y - 2018, by omega, by omega⟩
  · unfold yearsRange
    rw [List.pairwise_map]
    exact (List.pairwise_lt_range _).imp (fun h => by omega)
  · intro up nm tk enum r hr
    unfold processCompany at hr
    cases hc : getCik up tk with
    | none => rw [hc] at hr; cases hr
    | some cik =>
      rw [hc] at hr
      dsimp only at hr
      rw [mem_foldl_append] at hr
      rcases hr with h | ⟨y', hy', hstep⟩
      · cases h
      · rw [(yearStep_stamp hstep).1]; exact hy'

/-- Witness for claim C10: membership facts at concrete years, and the year stamp of
a concrete pipeline record. -/
theorem claim10_witness :
    (2019 : Nat) ∈ yearsRange 2025 ∧
      (⟨"ACME", 2018, "Acme GmbH"⟩ : SubRecord).year ∈ yearsRange 2018 :=
  ⟨((claim10_year_range 2025).1 2019).mpr (by decide),
    (claim10_year_range 2018).2.2 upAcme "ACME" "ACM" List.dedup
      ⟨"ACME", 2018, "Acme GmbH"⟩ (by decide)⟩

/-- Claim C2, counterexample: the year 2018 is processed, the identifier resolves,
and the submissions record holds no 10-K; the claim demands a recorded failure
reason reaching the output as a populated row, but process_company records nothing
for the year and save_results writes nothing at all: the (company, year) pair is
silently missing from the output. -/
theorem claim2_counterexample :
    yearsRange 2018 = [2018] ∧
      getCik upNoFiling "ACM" = some "0000000123" ∧
      processCompany upNoFiling 2018 "ACME" "ACM" List.dedup = [] ∧
      saveResults (processCompany upNoFiling 2018 "ACME" "ACM" List.dedup) = [] := by
  refine ⟨rfl, rfl, rfl, rfl⟩

/-- Claim C2, amended: a (company, year) pair surfaces in the results exactly when
the year is in range, the identifier resolved and the year's pipeline produced at
least one record; and a year owns an output sheet exactly when some result row
carries it.  Years that fail any stage or extract nothing are absent from results
and output alike: there is no failure row. -/
theorem claim2_amended :
    ∀ (up : Upstream) (cy : Nat) (nm tk : String) (enum : List String → List String)
      (y : Nat),
      ((∃ r ∈ processCompany up cy nm tk enum, r.year = y) ↔
        (y ∈ yearsRange cy ∧
          ∃ cik, getCik up tk = some cik ∧ yearStep up nm enum cik y ≠ [])) ∧
      (∀ results : List SubRecord,
        ((∃ sheet ∈ saveResults results, sheet.1 = y) ↔ ∃ r ∈ results, r.year = y)) := by
  intro up cy nm tk enum y
  constructor
  · unfold processCompany
    cases hc : getCik up tk with
    | none => simp
    | some cik =>
      dsimp only
      constructor
      · rintro ⟨r, hr, hy⟩
        rw [mem_foldl_append] at hr
        rcases hr with h | ⟨y', hy', hstep⟩
        · cases h
        · have hyy := (yearStep_stamp hstep).1
          rw [hy] at hyy
          subst hyy
          refine ⟨hy', cik, rfl, ?_⟩
          intro hnil
          rw [hnil] at hstep
          cases hstep
      · rintro ⟨hyy, cik', hcik, hne⟩
        injection hcik with hcik
        subst hcik
        obtain ⟨r, hr⟩ := List.exists_mem_of_ne_nil _ hne
        refine ⟨r, ?_, (yearStep_stamp hr).1⟩
        rw [mem_foldl_append]
        exact Or.inr ⟨y, hyy, hr⟩
  · intro results
    unfold saveResults
    split
    next hemp =>
      have : results = [] := by simpa [List.isEmpty_eq_true] using hemp
      subst this
      simp
    next hemp =>
      constructor
      · rintro ⟨sheet, hmem, hfst⟩
        obtain ⟨y', hy', rfl⟩ := List.mem_map.mp hmem
        rw [mem_sortBy, List.mem_dedup] at hy'
        obtain ⟨r, hr, hry⟩ := List.mem_map.mp hy'
        exact ⟨r, hr, by rw [hry]; exact hfst⟩
      · rintro ⟨r, hr, hry⟩
        refine ⟨(y, sortBy (fun a b => decide (a.subsidiary < b.subsidiary) ||
          a.subsidiary == b.subsidiary) (results.filter (fun r => r.year == y))), ?_, rfl⟩
        refine List.mem_map.mpr ⟨y, ?_, rfl⟩
        rw [mem_sortBy, List.mem_dedup]
        exact List.mem_map.mpr ⟨r, hr, hry⟩

/-- Claim C7 (confirmed): each pipeline stage carries a catch-all handler, so the
Except-typed stage functions never surface an error for any upstream state or input;
the underlying try-block of get_cik genuinely can raise (so the recovery is not
vacuous); and the company loop of main reaches every company. -/
theorem claim7_error_containment :
    (∀ (up : Upstream) (t : String), ∃ v, getCikE up t = Except.ok v) ∧
    (∀ (up : Upstream) (c : String) (y : Nat), ∃ v, get10kAccessionE up c y = Except.ok v) ∧
    (∀ (up : Upstream) (c a : String), ∃ v, getExhibit21UrlE up c a = Except.ok v) ∧
    getCikBody upBadCik "T" = Except.error "ValueError" ∧
    (∀ (up : Upstream) (cy : Nat) (enum : List String → List String)
      (companies : List (String × String)),
      (mainLoop up cy enum companies).length = companies.length) := by
  refine ⟨?_, ?_, ?_, rfl, ?_⟩
  · intro up t
    unfold getCikE pyCatchE
    cases getCikBody up t with
    | ok v => exact ⟨v, rfl⟩
    | error e => exact ⟨none, rfl⟩
  · intro up c y
    unfold get10kAccessionE pyCatchE
    cases get10kAccessionBody up c y with
    | ok v => exact ⟨v, rfl⟩
    | error e => exact ⟨none, rfl⟩
  · intro up c a
    unfold getExhibit21UrlE pyCatchE
    cases getExhibit21UrlBody up c a with
    | ok v => exact ⟨v, rfl⟩
    | error e => exact ⟨none, rfl⟩
  · intro up cy enum companies
    unfold mainLoop
    rw [List.length_map]

/-- Claim C8 (confirmed): the resolver never lets an exception escape; a lookup
response without a cik tag resolves to None; and a resolved identifier is the
ten-wide zero-fill of the parsed registry number, which for the registry's
nonnegative numbers is an all-digit string of length at least ten. -/
theorem claim8_resolver :
    ∀ (up : Upstream) (t : String),
      (∃ v, getCikE up t = Except.ok v) ∧
      (∀ resp : CikResp, up.cikLookup t = some resp → resp.cikTag = none →
        getCik up t = none) ∧
      (∀ s : String, getCik up t = some s →
        ∃ n : Int, s = zfill 10 n.repr ∧
          (0 ≤ n → (∀ c ∈ s.toList, c.isDigit = true) ∧ 10 ≤ s.length)) := by
  intro up t
  refine ⟨?_, ?_, ?_⟩
  · unfold getCikE pyCatchE
    cases getCikBody up t with
    | ok v => exact ⟨v, rfl⟩
    | error e => exact ⟨none, rfl⟩
  · intro resp hresp htag
    have hbody : getCikBody up t = Except.ok none := by
      unfold getCikBody
      rw [hresp]
      dsimp only
      split
      · rw [htag]
      · rfl
    unfold getCik
    rw [hbody]
    rfl
  · intro s hs
    unfold getCik pyCatch getCikBody at hs
    cases hlk : up.cikLookup t with
    | none =>
      rw [hlk] at hs
      cases hs
    | some resp =>
      rw [hlk] at hs
      dsimp only at hs
      by_cases hcond : (respTruthy resp.status && resp.status == 200) = true
      · rw [if_pos hcond] at hs
        cases htag : resp.cikTag with
        | none =>
          rw [htag] at hs
          cases hs
        | some txt =>
          rw [htag] at hs
          dsimp only at hs
          cases hpi : pythonInt txt with
          | none =>
            rw [hpi] at hs
            cases hs
          | some n =>
            rw [hpi] at hs
            dsimp only at hs
            injection hs with hs
            refine ⟨n, hs.symm, ?_⟩
            intro hn
            obtain ⟨m, rfl⟩ := Int.eq_ofNat_of_zero_le hn
            have hrepr : ((m : Int)).repr = Nat.repr m := rfl
            rw [← hs, hrepr]
            exact zfill_of_digits 10 (Nat.repr m) (repr_toList_ne_nil m)
              (repr_toList_digits m)
      · rw [if_neg hcond] at hs
        cases hs

/-- Witness for claim C8: an upstream response with no cik tag resolves to None, the
resolver's catch swallows the ValueError of a non-numeric tag, and the Acme run's
identifier satisfies the zero-fill characterization. -/
theorem claim8_witness :
    getCik upNoTag "TKR" = none ∧
      (∃ v, getCikE upBadCik "T" = Except.ok v) ∧
      (∃ n : Int, "0000000123" = zfill 10 n.repr ∧
        (0 ≤ n → (∀ c ∈ "0000000123".toList, c.isDigit = true) ∧
          10 ≤ "0000000123".length)) :=
  ⟨(claim8_resolver upNoTag "TKR").2.1 ⟨200, none⟩ rfl rfl,
    (claim8_resolver upBadCik "T").1,
    (claim8_resolver upAcme "ACM").2.2 "0000000123" rfl⟩
